import Mathlib

/-!
Shallow embedding of the memory retrieval and reflection subsystem of
SurvivorWorld (files `src/agent/agent_cognition/retrieve.py` and
`src/agent/agent_cognition/reflect.py`, plus the keyword-extraction entry
point of `src/parsing.py`).

Numeric scores (Python floats) are modelled by rationals `ℚ`.  External
capabilities that the code consumes but that are not part of this repository's
core (the spaCy keyword extractor, the text-embedding service, cosine
similarity, the GPT importance scorer, the token counter and the summarizer)
are modelled as function parameters, bundled in the `Externals` structure;
every theorem quantifies over them.  Operations of the memory store
(`src/agent/memory_stream.py`) and of the GPT helper layer
(`src/gpt/gpt_helpers.py`) are not under `src/`; each of those definitions is
modelled from the spec and marked as such in its doc comment.
-/

namespace SurvivorWorld

/-! ## Python-semantics helpers -/

/-- A Python dict mapping a keyword category to a list of keyword strings,
modelled as an insertion-ordered association list (CPython dicts preserve
insertion order). -/
abbrev KwDict := List (String × List String)

/-- Python truthiness of an optional string: `None` and `""` are falsy. -/
def truthyStr : Option String → Bool
  | none => false
  | some s => !(s == "")

/-- Python truthiness of an optional dict: `None` and `{}` are falsy. -/
def truthyKw : Option KwDict → Bool
  | none => false
  | some d => !d.isEmpty

/-- Python `min` over a nonempty numeric list (the convention for `[]` is 0;
`min([])` raises in Python and the code only ever calls it on nonempty
candidate lists). -/
def listMin : List ℚ → ℚ
  | [] => 0
  | x :: xs => xs.foldl min x

/-- Python `max` over a nonempty numeric list (same convention as `listMin`). -/
def listMax : List ℚ → ℚ
  | [] => 0
  | x :: xs => xs.foldl max x

/-- Python tail slice `l[-k:]`.  For `k = 0` this is `l[0:] = l` (a Python
corner: `-0 == 0`), otherwise the last `k` elements (all of `l` if `k ≥ len`). -/
def pyNegSlice {α : Type} (l : List α) (k : Nat) : List α :=
  if k = 0 then l else l.drop (l.length - k)

/-- Characters treated as whitespace by Python's `str.strip` / `int` parsing
(ASCII model). -/
def pyIsSpace (c : Char) : Bool :=
  c == ' ' || c == '\t' || c == '\n' || c == '\r'

/-- Python `str.strip()` (ASCII whitespace model). -/
def pyStrip (s : String) : String :=
  String.mk ((s.toList.dropWhile pyIsSpace).reverse.dropWhile pyIsSpace).reverse

/-- Python `int(s)` for a decimal string: optional surrounding whitespace,
optional sign, at least one digit (ASCII model, no underscores).  Returns
`none` where Python raises `ValueError`. -/
def pyIntParse (s : String) : Option Int :=
  let cs := (s.toList.dropWhile pyIsSpace).reverse.dropWhile pyIsSpace |>.reverse
  let (neg, ds) : Bool × List Char :=
    match cs with
    | '-' :: rest => (true, rest)
    | '+' :: rest => (false, rest)
    | rest => (false, rest)
  if ds.isEmpty || !(ds.all Char.isDigit) then none
  else
    let n := ds.foldl (fun acc c => acc * 10 + (c.toNat - '0'.toNat)) 0
    some (if neg then -(n : Int) else (n : Int))

/-- Python `s.split('.', 1)` followed by the two-variable unpacking used in
`reflect.generalize`: yields the part before the first `'.'` and the part
after it, or `none` when `s` has no `'.'` (where the unpacking raises). -/
def splitOnceDot (s : String) : Option (String × String) :=
  let cs := s.toList
  if cs.contains '.' then
    some (String.mk (cs.takeWhile (fun c => !(c == '.'))),
          String.mk ((cs.dropWhile (fun c => !(c == '.'))).drop 1))
  else none

/-- First-occurrence deduplication with an accumulator of already-seen
elements.  Models `OrderedSet(xs)` and is also used for `list(set(xs))` on
*strings*, whose CPython iteration order depends on the per-process string
hash seed; no claim below depends on that order. -/
def dedupFirstAux (seen : List String) : List String → List String
  | [] => []
  | x :: xs =>
    if seen.contains x then dedupFirstAux seen xs
    else x :: dedupFirstAux (x :: seen) xs

/-- `list(OrderedSet(a) - OrderedSet(b))` from `reflect.generalize`: the
first occurrences of elements of `a` that do not occur in `b`, in order. -/
def orderedSetDiff (a b : List String) : List String :=
  (dedupFirstAux [] a).filter (fun x => !(b.contains x))

/-! ## CPython `set` of small nonnegative ints

`retrieve.get_relevant_memory_ids` returns `list(set(memory_ids))`; the
iteration order of a CPython `set` of ints is deterministic (int hashing is
not seed-randomized) but is *hash-table order*, not insertion or numeric
order.  The model below follows CPython's `setobject.c`: open addressing
over a power-of-two table starting at size 8, probe sequence
`i = (5*i + 1 + perturb) & mask` with `perturb >>= 5` (plus 9 linear probes
when they fit below the mask), and a resize to the smallest power of two
greater than `4*used` whenever `fill*5 ≥ mask*3`. -/

/-- CPython `hash` of a nonnegative int: reduction modulo `2^61 - 1`. -/
def pyHash (n : Nat) : Nat := n % (2 ^ 61 - 1)

/-- Scan the probe window `i, i+1, ..., i+probes` of the table for key `k`:
returns `some none` if `k` is already present, `some (some j)` for the first
empty slot `j`, `none` if the whole window is occupied by other keys. -/
def pyScan (table : Array (Option Nat)) (k : Nat) : Nat → Nat → Option (Option Nat)
  | i, 0 =>
    match table.getD i none with
    | none => some (some i)
    | some k2 => if k2 = k then some none else none
  | i, probes + 1 =>
    match table.getD i none with
    | none => some (some i)
    | some k2 => if k2 = k then some none else pyScan table k (i + 1) probes

/-- CPython `set_add_entry` probing loop: find the slot for key `k` with hash
`h`.  `fuel` bounds the number of probe-window jumps (the real loop always
terminates because the table has empty slots; the fuel is ample for every
evaluation in this file and exhaustion returns `none`, in which case the
insertion is skipped). -/
def pyFindSlot (table : Array (Option Nat)) (mask k : Nat) :
    Nat → Nat → Nat → Option (Option Nat)
  | 0, _, _ => none
  | fuel + 1, i, perturb =>
    let probes := if i + 9 ≤ mask then 9 else 0
    match pyScan table k i probes with
    | some r => some r
    | none =>
      let perturb2 := perturb >>> 5
      pyFindSlot table mask k fuel ((i * 5 + 1 + perturb2) &&& mask) perturb2

/-- State of a CPython set of ints: the slot table and the number of used
entries (no deletions occur, so `fill = used`). -/
structure PySet where
  table : Array (Option Nat)
  used : Nat

/-- The empty CPython set: 8 slots. -/
def pySetEmpty : PySet := ⟨Array.mkArray 8 none, 0⟩

/-- Insert every key of the table (in slot order) into a fresh table of the
given size; models `set_table_resize`'s reinsertion pass. -/
def pyReinsert (keys : List Nat) (size : Nat) : Array (Option Nat) :=
  keys.foldl
    (fun t k =>
      match pyFindSlot t (size - 1) k (size + 64) (pyHash k &&& (size - 1)) (pyHash k) with
      | some (some j) => t.set! j (some k)
      | _ => t)
    (Array.mkArray size none)

/-- CPython `set_add_entry` followed by the resize check (`fill*5 ≥ mask*3`
resizes to the smallest power of two above `used*4`, or `used*2` beyond
50000 entries). -/
def pySetAdd (s : PySet) (k : Nat) : PySet :=
  let mask := s.table.size - 1
  match pyFindSlot s.table mask k (s.table.size + 64) (pyHash k &&& mask) (pyHash k) with
  | some none => s
  | none => s
  | some (some j) =>
    let table2 := s.table.set! j (some k)
    let used2 := s.used + 1
    if used2 * 5 ≥ mask * 3 then
      let minused := if used2 > 50000 then used2 * 2 else used2 * 4
      let newsize := Nat.nextPowerOfTwo (minused + 1)
      ⟨pyReinsert (table2.toList.filterMap id) newsize, used2⟩
    else
      ⟨table2, used2⟩

/-- `list(set(xs))` for a list of nonnegative ints, per the CPython model
above: insert in list order, then read the table in slot order. -/
def pySetList (xs : List Nat) : List Nat :=
  (xs.foldl pySetAdd pySetEmpty).table.toList.filterMap id

/-! ## Data model -/

/-- Record kinds.  Modelled from the spec: `MemoryType` lives in
`src/agent/memory_stream.py`, which is not under `src/`; per spec §3 the
closed set of kinds is OBSERVATION and REFLECTION. -/
inductive MemoryType
  | observation
  | reflection
deriving DecidableEq

/-- One memory record.  Modelled from the spec (§3 MemoryRecord): the record
class lives in `src/agent/memory_stream.py`, which is not under `src/`.
The cached embedding is stored as a field, invalidated by explicit update. -/
structure MemoryRecord where
  node_description : String
  node_importance : ℚ
  node_embedding : List ℚ
  node_type : MemoryType
  node_round : Nat
  node_tick : Nat
  node_keywords : KwDict
  node_location : String
  node_success : Bool
  node_actor_id : Nat
deriving DecidableEq

instance : Inhabited MemoryRecord :=
  ⟨⟨"", 0, [], .observation, 0, 0, [], "", true, 0⟩⟩

/-- A character's memory stream.  Modelled from the spec (§3, §4.1):
`MemoryStream` lives in `src/agent/memory_stream.py`, not under `src/`.
`observations` is the ordered log (a record's id is its position),
`keyword_nodes` the inverted keyword index, and the remaining fields are the
scoring constants read by `retrieve.py`. -/
structure Memory where
  observations : List MemoryRecord
  keyword_nodes : List (String × List (String × List Nat))
  gamma : ℚ
  recency_alpha : ℚ
  importance_alpha : ℚ
  relevance_alpha : ℚ
  lookback : Nat
  query_embeddings : List (List ℚ)

/-- `num_observations`: the store's current size, which is also the next id
and the recency reference point (spec §3 invariant). -/
def Memory.num_observations (m : Memory) : Nat := m.observations.length

/-- `keyword_nodes[kw_type][w]`.  Modelled from the spec (§4.1
`lookup_by_keyword`): absent categories or keywords yield the empty id set,
not an error. -/
def Memory.lookup_nodes (m : Memory) (kw_type w : String) : List Nat :=
  (((m.keyword_nodes.lookup kw_type).getD []).lookup w).getD []

/-- `memory.get_embedding(i)`.  Modelled from the spec (§3): the cached
embedding of record `i`. -/
def Memory.get_embedding (m : Memory) (i : Nat) : List ℚ :=
  (m.observations.getD i default).node_embedding

/-- `memory.get_observation_type(idx)`.  Modelled from the spec (§4.1 `get`):
`none` when the id is out of range (matching the truthiness test
`if memory_type` in `reflect.update_existing_generalizations`). -/
def Memory.get_observation_type (m : Memory) (i : Int) : Option MemoryType :=
  if 0 ≤ i then (m.observations.get? i.toNat).map (·.node_type) else none

/-- The game-side context consumed by these modules: `game.round`,
`game.tick`, and the parser's spaCy-backed `extract_keywords` (the method in
`src/parsing.py` returns `None` for falsy text and otherwise a dict of
keyword lists; its linguistic behaviour is an external capability, so it is
a function-valued field here). -/
structure Game where
  extract_keywords : String → Option KwDict
  round : Nat
  tick : Nat

/-- A character: its memory, optional duck-typed goals capability
(`character.goals.get_goals(round, as_str=True)`; `none` models the
`AttributeError` branch), id and location name. -/
structure Character where
  memory : Memory
  goals : Option (Nat → Option String)
  id : Nat
  location_name : String

/-- The `index` value of one JSON entry produced by the summarizer, as seen
through `int(ref["index"])`: the key may be absent (`KeyError`), present but
not convertible to an int (`ValueError`/`TypeError`), or an integer. -/
inductive JsonIdx
  | missing
  | malformed
  | val (i : Int)
deriving DecidableEq

/-- One entry of the summarizer's `new`/`updated` lists; `statement = none`
models an absent `"statement"` key (`KeyError`). -/
structure GenEntry where
  index : JsonIdx
  statement : Option String
deriving DecidableEq

/-- The parsed JSON response of the summarizer: `generalizations["new"]` and
`generalizations["updated"]`, each `none` when the key is absent or the
response is not subscriptable (the `KeyError`/`TypeError` branches). -/
structure GenResponse where
  newEntries : Option (List GenEntry)
  updatedEntries : Option (List GenEntry)
deriving DecidableEq

/-- External capabilities consumed by the code under test (spec §6): the
embedding service, cosine similarity, the GPT action-importance scorer, the
token-count oracle, the summarizer (already composed with JSON parsing — the
`while not success` retry in `generalize` is bounded by the retry budget of
`GptCallHandler` in `src/gpt/gpt_helpers.py`, not under `src/`), the
impressions text and the insight question from the prompt assets. -/
structure Externals where
  embed : String → List ℚ
  cosSim : List ℚ → List ℚ → ℚ
  summaryOf : String → String
  importanceOf : String → ℚ
  tok : String → Nat
  summarize : String → GenResponse
  impressions : List String
  insight_question : String

/-! ## `src/agent/agent_cognition/retrieve.py` -/

/-- `minmax_normalize(lst, target_min, target_max)` (retrieve.py:208).  The
zero-range branch returns the hardcoded list `[0.5] * len(lst)` regardless of
the targets.  The `except TypeError` branches of the source handle `None`
entries in a float list; score lists here are rational-valued, so those
branches are dead and are not modelled. -/
def minmax_normalize (lst : List ℚ) (target_min target_max : ℚ) : List ℚ :=
  let min_val := listMin lst
  let max_val := listMax lst
  let range_val := max_val - min_val
  if range_val = 0 then
    List.replicate lst.length (1 / 2)
  else
    lst.map (fun x => (x - min_val) * (target_max - target_min) / range_val + target_min)

/-- `calculate_node_recency` (retrieve.py:96): exponential decay
`gamma ** (latest_node - i)` followed by min-max normalization to `[0,1]`. -/
def calculate_node_recency (character : Character) (memory_ids : List Nat) : List ℚ :=
  let latest_node := character.memory.num_observations
  let recency := memory_ids.map (fun i => character.memory.gamma ^ ((latest_node : ℤ) - (i : ℤ)))
  minmax_normalize recency 0 1

/-- `calculate_node_importance` (retrieve.py:115): stored importances,
min-max normalized to `[0,1]`. -/
def calculate_node_importance (character : Character) (memory_ids : List Nat) : List ℚ :=
  let importances :=
    memory_ids.map (fun i => (character.memory.observations.getD i default).node_importance)
  minmax_normalize importances 0 1

/-- `calculate_node_relevance` (retrieve.py:130): cosine similarity against
the query embedding when a query is passed, otherwise the rowwise maximum
against the default query embeddings; then min-max normalized. -/
def calculate_node_relevance (ext : Externals) (character : Character)
    (memory_ids : List Nat) (query : Option String) : List ℚ :=
  let memory_embeddings := memory_ids.map character.memory.get_embedding
  let relevances :=
    if truthyStr query then
      let query_embedding := ext.embed (query.getD "")
      memory_embeddings.map (fun e => ext.cosSim e query_embedding)
    else
      let default_embeddings := character.memory.query_embeddings
      memory_embeddings.map (fun e => listMax (default_embeddings.map (ext.cosSim e)))
  minmax_normalize relevances 0 1

/-- The unsorted `(node_id, total_score)` pairs of `rank_nodes`
(retrieve.py:79–90): the three sub-score vectors, each scaled by its alpha
weight, summed elementwise and zipped with the ids. -/
def node_scores (ext : Externals) (character : Character)
    (node_ids : List Nat) (query : Option String) : List (Nat × ℚ) :=
  let recency := calculate_node_recency character node_ids
  let importance := calculate_node_importance character node_ids
  let relevance := calculate_node_relevance ext character node_ids query
  let recency := recency.map (character.memory.recency_alpha * ·)
  let importance := importance.map (character.memory.importance_alpha * ·)
  let relevance := relevance.map (character.memory.relevance_alpha * ·)
  let total_score := List.zipWith (· + ·) (List.zipWith (· + ·) recency importance) relevance
  node_ids.zip total_score

/-- `rank_nodes` (retrieve.py:68): `sorted(node_scores, key=lambda x: x[1])`.
Python's `sorted` is a stable ascending sort, modelled by `List.mergeSort`
on the score component. -/
def rank_nodes (ext : Externals) (character : Character)
    (node_ids : List Nat) (query : Option String) : List (Nat × ℚ) :=
  (node_scores ext character node_ids query).mergeSort (fun a b => a.2 ≤ b.2)

/-- `combine_dicts_helper(existing, new)`.  Modelled from the spec (§4.3
step 1; the helper lives in `src/utils/general.py`, not under `src/`):
keyword lists are unioned per category, preserving insertion order. -/
def combine_dicts_helper (existing new : KwDict) : KwDict :=
  new.foldl
    (fun acc kv =>
      if (acc.lookup kv.1).isSome then
        acc.map (fun kv2 =>
          if kv2.1 = kv.1 then (kv2.1, kv2.2 ++ kv.2.filter (fun w => !(kv2.2.contains w)))
          else kv2)
      else acc ++ [kv])
    existing

/-- `gather_keywords_for_search(game, character, query)` (retrieve.py:176):
keywords from the last `lookback` observations, from the previous round's
goals when the goals capability exists and returns truthy text, and from the
query text. -/
def gather_keywords_for_search (game : Game) (character : Character)
    (query : Option String) : KwDict :=
  let retrieval_kwds : KwDict := []
  let retrieval_kwds :=
    (pyNegSlice character.memory.observations character.memory.lookback).foldl
      (fun acc node =>
        let node_kwds := game.extract_keywords node.node_description
        if truthyKw node_kwds then combine_dicts_helper acc (node_kwds.getD []) else acc)
      retrieval_kwds
  let prev_round := game.round - 1
  let current_goals : Option String :=
    match character.goals with
    | none => none
    | some get_goals => get_goals prev_round
  let retrieval_kwds :=
    if truthyStr current_goals then
      let goal_kwds := game.extract_keywords (current_goals.getD "")
      if truthyKw goal_kwds then combine_dicts_helper retrieval_kwds (goal_kwds.getD [])
      else retrieval_kwds
    else retrieval_kwds
  let retrieval_kwds :=
    if truthyStr query then
      let query_kwds := game.extract_keywords (query.getD "")
      if truthyKw query_kwds then combine_dicts_helper retrieval_kwds (query_kwds.getD [])
      else retrieval_kwds
    else retrieval_kwds
  retrieval_kwds

/-- `get_relevant_memory_ids(seach_keys, character)` (retrieve.py:157):
concatenate the cached node ids of every keyword and deduplicate via
`list(set(memory_ids))` (CPython set order, see `pySetList`). -/
def get_relevant_memory_ids (seach_keys : KwDict) (character : Character) : List Nat :=
  let memory_ids :=
    seach_keys.foldl
      (fun acc kv => kv.2.foldl (fun acc2 w => acc2 ++ character.memory.lookup_nodes kv.1 w) acc)
      []
  pySetList memory_ids

/-- `retrieve(game, character, query, n, include_idx)` (retrieve.py:32).
Returns `none` — Python `None`, not an empty list — when no candidate ids
resolve; otherwise the ranked descriptions, truncated to the *last* `n`
elements of the ascending ranking when `n > 0`. -/
def retrieve (ext : Externals) (game : Game) (character : Character)
    (query : Option String) (n : Int) (include_idx : Bool) : Option (List String) :=
  let seach_keys := gather_keywords_for_search game character query
  let memory_node_ids := get_relevant_memory_ids seach_keys character
  if memory_node_ids.length = 0 then none
  else
    let ranked_memory_ids := rank_nodes ext character memory_node_ids query
    let ranked_memory_ids :=
      if n > 0 then ranked_memory_ids.drop (ranked_memory_ids.length - n.toNat)
      else ranked_memory_ids
    if !include_idx then
      some (ranked_memory_ids.map (fun t =>
        (character.memory.observations.getD t.1 default).node_description ++ "\n"))
    else
      some (ranked_memory_ids.map (fun t =>
        Nat.repr t.1 ++ ". " ++ (character.memory.observations.getD t.1 default).node_description))

/-! ## `src/agent/agent_cognition/reflect.py` -/

/-- Python exception kinds raised (or propagated) by the reflection cycle. -/
inductive PyErr
  | typeError
  | valueError
  | attributeError
  | notFound
  | typeMismatch
deriving DecidableEq

/-- `memory.add_memory(...)`.  Modelled from the spec (§4.1 `add`;
`MemoryStream` is not under `src/`): append a record with the next id, index
its keywords, store its embedding; a malformed (`None`) keyword dict yields
an empty keyword set, never a failure. -/
def Memory.add_memory (ext : Externals) (m : Memory) (node_round node_tick : Nat)
    (description : String) (keywords : Option KwDict) (location : String)
    (success_status : Bool) (memory_importance : ℚ) (memory_type : MemoryType)
    (actor_id : Nat) : Memory :=
  let kwds := keywords.getD []
  let new_id := m.observations.length
  let record : MemoryRecord :=
    ⟨description, memory_importance, ext.embed description, memory_type,
      node_round, node_tick, kwds, location, success_status, actor_id⟩
  let kn :=
    kwds.foldl
      (fun acc kv =>
        kv.2.foldl
          (fun acc2 w =>
            if (acc2.lookup kv.1).isSome then
              acc2.map (fun cat =>
                if cat.1 = kv.1 then
                  (cat.1,
                    if (cat.2.lookup w).isSome then
                      cat.2.map (fun ws => if ws.1 = w then (ws.1, ws.2 ++ [new_id]) else ws)
                    else cat.2 ++ [(w, [new_id])])
                else cat)
            else acc2 ++ [(kv.1, [(w, [new_id])])])
          acc)
      m.keyword_nodes
  { m with observations := m.observations ++ [record], keyword_nodes := kn }

/-- `memory.update_node(node_id, round, tick, description)`.  Modelled from
the spec (§4.1 `update`): in-place revision of round, tick and description;
NotFound when the id is out of range, TypeMismatch when the target is not a
REFLECTION record. -/
def Memory.update_node (m : Memory) (node_id : Int) (node_round node_tick : Nat)
    (node_description : String) : Except PyErr Memory :=
  if 0 ≤ node_id ∧ node_id.toNat < m.observations.length then
    let old := m.observations.getD node_id.toNat default
    if old.node_type = .reflection then
      let revised := { old with node_round := node_round, node_tick := node_tick,
                                node_description := node_description }
      .ok { m with observations := m.observations.set node_id.toNat revised }
    else .error .typeMismatch
  else .error .notFound

/-- `memory.update_node_embedding(node_id, new_description)`.  Modelled from
the spec (§3 invariant: a REFLECTION's embedding is recomputed whenever its
description is updated). -/
def Memory.update_node_embedding (ext : Externals) (m : Memory) (node_id : Int)
    (new_description : String) : Except PyErr Memory :=
  if 0 ≤ node_id ∧ node_id.toNat < m.observations.length then
    let old := m.observations.getD node_id.toNat default
    let revised := { old with node_embedding := ext.embed new_description }
    .ok { m with observations := m.observations.set node_id.toNat revised }
  else .error .notFound

/-- `parser.summarise_and_score_action(description, thing, command, needs_summary,
needs_score)` (parsing.py:478).  The summary generator (`create_action_statement`)
and the GPT importance scorer are external calls (`ext.summaryOf`,
`ext.importanceOf`); the keyword pass is `parser.extract_keywords`.
`reflect.py` calls this with `needs_summary=False`. -/
def summarise_and_score_action (ext : Externals) (game : Game) (description : String)
    (needs_summary needs_score : Bool) : String × ℚ × Option KwDict :=
  let action_statement := if needs_summary then ext.summaryOf description else description
  let importance_of_action := if needs_score then ext.importanceOf action_statement else 0
  (action_statement, importance_of_action, game.extract_keywords action_statement)

/-- `add_new_generalization_helper(game, character, generalization)`
(reflect.py:277): a missing `"statement"` key is a malformed reflection and
is skipped; otherwise the statement is scored and appended as a REFLECTION
record. -/
def add_new_generalization_helper (ext : Externals) (game : Game)
    (character : Character) (generalization : GenEntry) : Character :=
  match generalization.statement with
  | none => character
  | some desc =>
    let scored := summarise_and_score_action ext game desc false true
    let ref_importance := scored.2.1
    let ref_kwds := scored.2.2
    let memory2 :=
      character.memory.add_memory ext game.round game.tick desc ref_kwds
        character.location_name true ref_importance .reflection character.id
    { character with memory := memory2 }

/-- `add_new_generalizations(game, character, generalizations)`
(reflect.py:301): iterate `generalizations["new"]`; an absent key skips the
whole step. -/
def add_new_generalizations (ext : Externals) (game : Game)
    (character : Character) (generalizations : GenResponse) : Character :=
  match generalizations.newEntries with
  | none => character
  | some new_gens => new_gens.foldl (add_new_generalization_helper ext game) character

/-- One iteration of the `for ref in updated_gens` loop of
`update_existing_generalizations` (reflect.py:336): a missing or malformed
index, or a missing statement, falls back to `add_new_generalization_helper`;
a resolvable non-REFLECTION target also falls back; otherwise the target
record is updated in place and its embedding recomputed. -/
def update_existing_one (ext : Externals) (game : Game)
    (character : Character) (ref : GenEntry) : Except PyErr Character :=
  match ref.index, ref.statement with
  | .val prev_idx, some statement =>
    let memory_type := character.memory.get_observation_type prev_idx
    if memory_type.isSome ∧ memory_type ≠ some .reflection then
      .ok (add_new_generalization_helper ext game character ref)
    else do
      let m1 ← character.memory.update_node prev_idx game.round game.tick statement
      let m2 ← Memory.update_node_embedding ext m1 prev_idx statement
      .ok { character with memory := m2 }
  | _, _ => .ok (add_new_generalization_helper ext game character ref)

/-- `update_existing_generalizations(game, character, generalizations)`
(reflect.py:322): iterate `generalizations["updated"]`; an absent key skips
the whole step. -/
def update_existing_generalizations (ext : Externals) (game : Game)
    (character : Character) (generalizations : GenResponse) : Except PyErr Character :=
  match generalizations.updatedEntries with
  | none => .ok character
  | some updated_gens => updated_gens.foldlM (update_existing_one ext game) character

/-- `add_generalizations_to_memory(game, character, generalizations)`
(reflect.py:262): new generalizations first, then updates. -/
def add_generalizations_to_memory (ext : Externals) (game : Game)
    (character : Character) (generalizations : GenResponse) : Except PyErr Character :=
  update_existing_generalizations ext game
    (add_new_generalizations ext game character generalizations) generalizations

/-- `limit_context_length(history, max_tokens, tokenizer, keep_most_recent=False)`.
Modelled from the spec (§4.4 step 3a; the helper lives in
`src/gpt/gpt_helpers.py`, not under `src/`): fill the batch greedily from the
front of the pool until adding the next item would exceed the budget. -/
def limit_context_length (tok : String → Nat) :
    List String → Nat → List String
  | [], _ => []
  | x :: xs, max_tokens =>
    if tok x ≤ max_tokens then x :: limit_context_length tok xs (max_tokens - tok x)
    else []

/-- `get_prompt_token_count(content=pool, role=None, pad_reply=False)` on a
list of strings.  Modelled from the spec (§6 `count_tokens`; the helper lives
in `src/gpt/gpt_helpers.py`, not under `src/`): the sum of the oracle's
per-item token counts. -/
def pool_token_count (tok : String → Nat) (pool : List String) : Nat :=
  (pool.map tok).sum

/-- The classification pass of the loop body (reflect.py:205–215): split each
batch item at its first `'.'`, parse the id, and partition the batch into
reflection items (kept whole) and observation descriptions (stripped).
A malformed item raises (`ValueError` from unpacking or `int`,
`AttributeError` from `.value` on a failed type lookup). -/
def batch_partition (character : Character) :
    List String → Except PyErr (List String × List String)
  | [] => .ok ([], [])
  | full_memory :: rest =>
    match splitOnceDot full_memory with
    | none => .error .valueError
    | some (idx_str, desc_str) =>
      match pyIntParse idx_str with
      | none => .error .valueError
      | some idx =>
        let memory_desc := pyStrip desc_str
        match character.memory.get_observation_type idx with
        | none => .error .attributeError
        | some memory_type => do
          let parts ← batch_partition character rest
          if memory_type = .reflection then .ok (full_memory :: parts.1, parts.2)
          else .ok (parts.1, memory_desc :: parts.2)

/-- `relevant_memories_primer` (reflect.py:162). -/
def relevant_memories_primer : List String :=
  ["\nRelevant Reflections:\n", "\nRelevant Memories:\n", "None\n"]

/-- How the reflection loop exited: the pool's token count reached zero, or
no batch item fit the budget (the `break` at reflect.py:198). -/
inductive LoopExit
  | drained
  | aborted
deriving DecidableEq

/-- The `while relevant_memories_token_count > 0` loop of `generalize`
(reflect.py:185–259), with the store state and the number of summarizer
invocations threaded through.  `fuel` bounds the number of loop-condition
checks; `none` means the fuel ran out (the accompanying theorem shows
`pool.length + 1` always suffices).  The result carries the final character,
the number of summarizer calls made, and the exit kind. -/
def reflect_loop (ext : Externals) (game : Game) (available_tokens : Nat) :
    Nat → List String → Character → Nat →
    Option (Except PyErr (Character × Nat × LoopExit))
  | 0, _, _, _ => none
  | fuel + 1, relevant_memories, character, calls =>
    if 0 < pool_token_count ext.tok relevant_memories then
      let relevant_memories_limited :=
        limit_context_length ext.tok relevant_memories available_tokens
      if relevant_memories_limited.length = 0 then
        some (.ok (character, calls, .aborted))
      else
        match batch_partition character relevant_memories_limited with
        | .error e => some (.error e)
        | .ok parts =>
          let reflections_lmtd :=
            if parts.1.isEmpty then [relevant_memories_primer.getD 2 ""] else parts.1
          let observations_lmtd :=
            if parts.2.isEmpty then [relevant_memories_primer.getD 2 ""] else parts.2
          let user_prompt_list :=
            ext.impressions ++ [relevant_memories_primer.getD 0 ""] ++ reflections_lmtd ++
              [relevant_memories_primer.getD 1 ""] ++ observations_lmtd ++
              ["\n" ++ ext.insight_question]
          let user_prompt_str := String.join user_prompt_list
          let new_generalizations := ext.summarize user_prompt_str
          match add_generalizations_to_memory ext game character new_generalizations with
          | .error e => some (.error e)
          | .ok character2 =>
            reflect_loop ext game available_tokens fuel
              (orderedSetDiff relevant_memories relevant_memories_limited) character2 (calls + 1)
    else
      some (.ok (character, calls, .drained))

/-- The retrieval pass of `generalize` (reflect.py:137–146): one `retrieve`
per probe question with `n = 25` and `include_idx=True`, accumulated with
`list.extend`.  A probe returning `None` makes `extend` raise `TypeError`. -/
def gather_relevant_memories (ext : Externals) (game : Game) (character : Character)
    (questions : List String) : Except PyErr (List String) :=
  questions.foldlM
    (fun acc question =>
      match retrieve ext game character (some question) 25 true with
      | none => .error .typeError
      | some memories => .ok (acc ++ memories))
    []

/-- `generalize(game, character)` (reflect.py:85): gather the pool from the
probe questions (`rp.memory_query_questions`, an asset file not under `src/`,
hence a parameter), deduplicate, sort ascending by string length, then run
the consolidation loop with the precomputed token budget (`available_tokens`,
computed once per cycle from static prompt components via
`get_token_remainder`, a helper not under `src/`). -/
def generalize (ext : Externals) (game : Game) (character : Character)
    (questions : List String) (available_tokens : Nat) :
    Except PyErr (Option (Character × Nat × LoopExit)) :=
  match gather_relevant_memories ext game character questions with
  | .error e => .error e
  | .ok mems =>
    let relevant_memories := dedupFirstAux [] mems
    let relevant_memories := relevant_memories.mergeSort (fun a b => a.length ≤ b.length)
    match reflect_loop ext game available_tokens (relevant_memories.length + 1)
        relevant_memories character 0 with
    | none => .ok none
    | some (.error e) => .error e
    | some (.ok r) => .ok (some r)

/-! ## Concrete states for counterexamples and witnesses -/

/-- Concrete external capabilities for evaluations.  Every embedding that
occurs in the concrete stores below is the unit vector `[1]`, and `cosSim`
is instantiated with the dot product, which agrees with true cosine
similarity on those unit vectors. -/
def exExternals : Externals where
  embed := fun _ => [1]
  cosSim := fun x y => (List.zipWith (· * ·) x y).sum
  summaryOf := fun s => s
  importanceOf := fun _ => 1
  tok := fun s => s.length
  summarize := fun _ => ⟨none, none⟩
  impressions := []
  insight_question := ""

/-- A game whose keyword extractor finds nothing (degenerate text). -/
def exGameNone : Game := ⟨fun _ => none, 1, 0⟩

/-- A character with an empty memory store. -/
def exCharEmpty : Character := ⟨⟨[], [], 1 / 2, 1, 1, 1, 1, []⟩, none, 0, "camp"⟩

/-- An observation record with the given description and importance, with
the unit embedding `[1]`. -/
def exRec (d : String) (imp : ℚ) : MemoryRecord :=
  ⟨d, imp, [1], .observation, 0, 0, [], "camp", true, 0⟩

/-- Nine observations (ids 0–8).  Ids 0 and 8 share the keyword "sword";
record 0 has importance 10, record 8 importance 5. -/
def exChar1 : Character :=
  ⟨⟨[exRec "d0" 10, exRec "d1" 1, exRec "d2" 1, exRec "d3" 1, exRec "d4" 1,
      exRec "d5" 1, exRec "d6" 1, exRec "d7" 1, exRec "d8" 5],
    [("objects", [("sword", [8, 0])])], 1 / 2, 1, 1, 1, 1, []⟩,
    none, 0, "camp"⟩

/-- A game whose extractor maps the most recent observation's description to
the keyword "sword" and finds nothing in any other text. -/
def exGame1 : Game :=
  ⟨fun s => if s = "d8" then some [("objects", ["sword"])] else none, 1, 0⟩

/-! ## Helper lemmas -/

lemma score_le_trans (a b c : Nat × ℚ) (hab : decide (a.2 ≤ b.2) = true)
    (hbc : decide (b.2 ≤ c.2) = true) : decide (a.2 ≤ c.2) = true := by
  simp only [decide_eq_true_eq] at hab hbc ⊢
  exact le_trans hab hbc

lemma score_le_total (a b : Nat × ℚ) :
    (decide (a.2 ≤ b.2) || decide (b.2 ≤ a.2)) = true := by
  simp [le_total]

lemma foldl_min_const (c : ℚ) : ∀ xs : List ℚ, (∀ x ∈ xs, x = c) → xs.foldl min c = c
  | [], _ => rfl
  | y :: ys, h => by
    have hy : y = c := h y (List.mem_cons_self y ys)
    have hys : ∀ x ∈ ys, x = c := fun x hx => h x (List.mem_cons_of_mem y hx)
    simp only [List.foldl_cons, hy, min_self]
    exact foldl_min_const c ys hys

lemma foldl_max_const (c : ℚ) : ∀ xs : List ℚ, (∀ x ∈ xs, x = c) → xs.foldl max c = c
  | [], _ => rfl
  | y :: ys, h => by
    have hy : y = c := h y (List.mem_cons_self y ys)
    have hys : ∀ x ∈ ys, x = c := fun x hx => h x (List.mem_cons_of_mem y hx)
    simp only [List.foldl_cons, hy, max_self]
    exact foldl_max_const c ys hys

lemma listMin_const (c : ℚ) (l : List ℚ) (hall : ∀ x ∈ l, x = c) (hne : l ≠ []) :
    listMin l = c := by
  cases l with
  | nil => exact absurd rfl hne
  | cons x xs =>
    have hx : x = c := hall x (List.mem_cons_self x xs)
    simp only [listMin, hx]
    exact foldl_min_const c xs (fun y hy => hall y (List.mem_cons_of_mem x hy))

lemma listMax_const (c : ℚ) (l : List ℚ) (hall : ∀ x ∈ l, x = c) (hne : l ≠ []) :
    listMax l = c := by
  cases l with
  | nil => exact absurd rfl hne
  | cons x xs =>
    have hx : x = c := hall x (List.mem_cons_self x xs)
    simp only [listMax, hx]
    exact foldl_max_const c xs (fun y hy => hall y (List.mem_cons_of_mem x hy))

/-! ## Claims -/

/-- C1, claim as stated is false.  Counterexample: with candidate ids 0 and 8
(nine observations, `gamma = 1/2`, importances 10 and 5, identical unit
embeddings), both candidates receive the identical total score `3/2`, yet the
returned sequence lists id 8 *before* id 0: CPython's `list(set(...))` hands
the stable sort the candidates in hash-table order `[8, 0]`, not in ascending
id order. -/
theorem claim_C1_counterexample :
    get_relevant_memory_ids (gather_keywords_for_search exGame1 exChar1 (some "q"))
        exChar1 = [8, 0] ∧
    rank_nodes exExternals exChar1 [8, 0] (some "q") = [(8, 3 / 2), (0, 3 / 2)] ∧
    retrieve exExternals exGame1 exChar1 (some "q") (-1) true = some ["8. d8", "0. d0"] := by
  have hids : get_relevant_memory_ids
      (gather_keywords_for_search exGame1 exChar1 (some "q")) exChar1 = [8, 0] := by decide
  have hrank : rank_nodes exExternals exChar1 [8, 0] (some "q")
      = [(8, 3 / 2), (0, 3 / 2)] := by
    norm_num [rank_nodes, node_scores, calculate_node_recency, calculate_node_importance,
      calculate_node_relevance, minmax_normalize, listMin, listMax, exExternals, exChar1, exRec,
      Memory.num_observations, Memory.get_embedding, List.replicate_succ,
      show truthyStr (some "q") = true from rfl, List.mergeSort, List.merge]
  refine ⟨hids, hrank, ?_⟩
  simp only [retrieve, hids, hrank]
  decide

/-- C1 (amended): the ranking produced by retrieval is a stable ascending
sort by total score, where ties are broken by the *candidate-list order*
(the CPython set iteration order of `get_relevant_memory_ids`), which is not
necessarily ascending id order: the ranking is sorted ascending by score,
and for every score value the tied candidates appear in exactly the order
the candidate list gave them to the sort. -/
theorem claim_C1_amended (ext : Externals) (game : Game) (character : Character)
    (query : Option String) :
    let cands := get_relevant_memory_ids
      (gather_keywords_for_search game character query) character
    let ranked := rank_nodes ext character cands query
    List.Pairwise (fun a b : Nat × ℚ => a.2 ≤ b.2) ranked ∧
      ∀ c : ℚ, ranked.filter (fun p => decide (p.2 = c)) =
        (node_scores ext character cands query).filter (fun p => decide (p.2 = c)) := by
  intro cands ranked
  constructor
  · have h := List.sorted_mergeSort score_le_trans score_le_total
      (node_scores ext character cands query)
    exact h.imp (fun hab => of_decide_eq_true hab)
  · intro c
    have hself : ((node_scores ext character cands query).filter
          (fun p => decide (p.2 = c))).filter (fun p => decide (p.2 = c))
        = (node_scores ext character cands query).filter (fun p => decide (p.2 = c)) :=
      List.filter_eq_self.mpr (fun a ha => (List.mem_filter.mp ha).2)
    have hpair : ((node_scores ext character cands query).filter
        (fun p => decide (p.2 = c))).Pairwise (fun a b => decide (a.2 ≤ b.2) = true) := by
      apply List.pairwise_of_forall_mem_list
      intro a ha b hb
      have ha2 : a.2 = c := of_decide_eq_true (List.mem_filter.mp ha).2
      have hb2 : b.2 = c := of_decide_eq_true (List.mem_filter.mp hb).2
      simp [ha2, hb2]
    have hsub : List.Sublist
        ((node_scores ext character cands query).filter (fun p => decide (p.2 = c)))
        ((node_scores ext character cands query).mergeSort (fun a b => decide (a.2 ≤ b.2))) :=
      List.sublist_mergeSort score_le_trans score_le_total hpair
        (List.filter_sublist _)
    have hsub2 : List.Sublist
        ((node_scores ext character cands query).filter (fun p => decide (p.2 = c)))
        (((node_scores ext character cands query).mergeSort
            (fun a b => decide (a.2 ≤ b.2))).filter (fun p => decide (p.2 = c))) := by
      have := hsub.filter (fun p => decide (p.2 = c))
      rwa [hself] at this
    have hperm : (((node_scores ext character cands query).mergeSort
        (fun a b => decide (a.2 ≤ b.2))).filter (fun p => decide (p.2 = c))).Perm
        ((node_scores ext character cands query).filter (fun p => decide (p.2 = c))) :=
      (List.mergeSort_perm (node_scores ext character cands query) _).filter _
    have hlen := hperm.length_eq
    exact (hsub2.eq_of_length hlen.symm).symm

/-- C2, claim as stated is false.  Counterexample: with an empty keyword
union, `retrieve` returns Python `None` (modelled `none`) — a failure
sentinel, not an empty sequence. -/
theorem claim_C2_counterexample :
    get_relevant_memory_ids (gather_keywords_for_search exGameNone exCharEmpty (some "query"))
        exCharEmpty = [] ∧
    retrieve exExternals exGameNone exCharEmpty (some "query") (-1) false = none ∧
    ∀ l : List String,
      retrieve exExternals exGameNone exCharEmpty (some "query") (-1) false ≠ some l := by
  refine ⟨by decide, by decide, ?_⟩
  intro l h
  rw [show retrieve exExternals exGameNone exCharEmpty (some "query") (-1) false = none
    from by decide] at h
  exact Option.noConfusion h

/-- C2 (amended): for every store state and query, if the union of candidate
ids resolved from all extracted keywords is empty, `retrieve` returns `None`
(a null sentinel, not an empty sequence and not an exception). -/
theorem claim_C2_amended (ext : Externals) (game : Game) (character : Character)
    (query : Option String) (n : Int) (include_idx : Bool)
    (h : get_relevant_memory_ids (gather_keywords_for_search game character query)
      character = []) :
    retrieve ext game character query n include_idx = none := by
  simp [retrieve, h]

/-- Witness for C2 (amended) at a concrete empty-union state. -/
theorem claim_C2_witness :
    retrieve exExternals exGameNone exCharEmpty (some "query") (-1) false = none :=
  claim_C2_amended exExternals exGameNone exCharEmpty (some "query") (-1) false (by decide)

/-- C5: with a positive limit `n`, `retrieve` returns exactly the image of
the last `n` elements of the ascending ranking an unlimited call (`n = -1`)
would produce, and hence at most `n` results. -/
theorem claim_C5 (ext : Externals) (game : Game) (character : Character)
    (query : Option String) (n : Int) (include_idx : Bool) (h : 0 < n) :
    retrieve ext game character query n include_idx =
      (retrieve ext game character query (-1) include_idx).map
        (fun l => l.drop (l.length - n.toNat)) ∧
    ∀ l, retrieve ext game character query n include_idx = some l →
      l.length ≤ n.toNat := by
  by_cases hids : (get_relevant_memory_ids
      (gather_keywords_for_search game character query) character).length = 0
  · constructor
    · simp [retrieve, hids]
    · intro l hl
      simp [retrieve, hids] at hl
  · have hn : n > 0 := h
    have hm : ¬ ((-1 : Int) > 0) := by norm_num
    constructor
    · simp only [retrieve, if_neg hids, if_pos hn, if_neg hm]
      cases include_idx <;>
        simp [List.map_drop, List.length_map]
    · intro l hl
      simp only [retrieve, if_neg hids, if_pos hn] at hl
      cases include_idx <;> simp at hl <;>
        · rcases hl with ⟨rfl⟩
          simp [List.length_drop]
          omega

/-- Witness for C5 at a concrete store, query and limit `n = 1`. -/
theorem claim_C5_witness :
    retrieve exExternals exGame1 exChar1 (some "q") 1 true =
      (retrieve exExternals exGame1 exChar1 (some "q") (-1) true).map
        (fun l => l.drop (l.length - (1 : Int).toNat)) ∧
    ∀ l, retrieve exExternals exGame1 exChar1 (some "q") 1 true = some l →
      l.length ≤ (1 : Int).toNat :=
  claim_C5 exExternals exGame1 exChar1 (some "q") 1 true (by norm_num)

/-- C10: retrieval is deterministic — two calls of `retrieve` with identical
store state and identical arguments yield identical ordered output.  In this
embedding `retrieve` is a pure function of the store, the query and the
(deterministic, spec §6) external capabilities, so the two calls are
definitionally equal; the candidate order is also reproducible because
CPython int hashing is not seed-randomized (`pySetList` is a function). -/
theorem claim_C10 (ext : Externals) (game : Game) (character : Character)
    (query : Option String) (n : Int) (include_idx : Bool) :
    retrieve ext game character query n include_idx =
      retrieve ext game character query n include_idx := rfl

/-- C3: there exists a store state on which the reflection cycle crashes
with an uncaught error: with an empty memory store the (single) probe query
resolves no candidate ids, `retrieve` returns `None`, and `generalize`'s
`relevant_memories.extend(memories)` raises `TypeError` instead of
proceeding. -/
theorem claim_C3 :
    retrieve exExternals exGameNone exCharEmpty
        (some "What have I learned recently?") 25 true = none ∧
    generalize exExternals exGameNone exCharEmpty
        ["What have I learned recently?", "How do relationships affect strategy?"] 1000 =
      .error .typeError := ⟨rfl, rfl⟩

/-- C7: when no pool item fits the token budget (in particular whenever the
shortest item alone exceeds it), the consolidation loop aborts after zero
batches — the summarizer-invocation count is 0 and the character's store is
returned unchanged. -/
theorem claim_C7 (ext : Externals) (game : Game) (available_tokens : Nat)
    (pool : List String) (character : Character)
    (h1 : pool ≠ []) (h2 : ∀ m ∈ pool, available_tokens < ext.tok m) :
    reflect_loop ext game available_tokens (pool.length + 1) pool character 0 =
      some (.ok (character, 0, .aborted)) := by
  cases pool with
  | nil => exact absurd rfl h1
  | cons x xs =>
    have hx : available_tokens < ext.tok x := h2 x (List.mem_cons_self x xs)
    have hsum : 0 < pool_token_count ext.tok (x :: xs) := by
      simp only [pool_token_count, List.map_cons, List.sum_cons]
      omega
    have hlim : limit_context_length ext.tok (x :: xs) available_tokens = [] := by
      simp only [limit_context_length, if_neg (Nat.not_le_of_lt hx)]
    simp [reflect_loop, hsum, hlim]

/-- Witness for C7: a one-item pool whose item (2 tokens) exceeds a zero
budget. -/
theorem claim_C7_witness :
    reflect_loop exExternals exGameNone 0 ((["aa"] : List String).length + 1) ["aa"]
      exCharEmpty 0 = some (.ok (exCharEmpty, 0, .aborted)) :=
  claim_C7 exExternals exGameNone 0 ["aa"] exCharEmpty (by decide)
    (by intro m hm; fin_cases hm; decide)

lemma dedupFirstAux_length_le : ∀ (seen l : List String),
    (dedupFirstAux seen l).length ≤ l.length
  | _, [] => Nat.le_refl 0
  | seen, x :: xs => by
    by_cases h : seen.contains x
    · simp only [dedupFirstAux, if_pos h]
      exact le_trans (dedupFirstAux_length_le seen xs) (Nat.le_succ _)
    · simp only [dedupFirstAux, if_neg h, List.length_cons]
      exact Nat.succ_le_succ (dedupFirstAux_length_le (x :: seen) xs)

lemma orderedSetDiff_head_length (x : String) (xs limited : List String)
    (hmem : limited.contains x = true) :
    (orderedSetDiff (x :: xs) limited).length ≤ xs.length := by
  have hseen : (([] : List String).contains x) = false := rfl
  have h1 : dedupFirstAux [] (x :: xs) = x :: dedupFirstAux [x] xs := by
    simp only [dedupFirstAux, hseen, Bool.false_eq_true, if_false]
  have h2 : orderedSetDiff (x :: xs) limited =
      (dedupFirstAux [x] xs).filter (fun y => !(limited.contains y)) := by
    have hx : x ∈ limited := by simpa using hmem
    unfold orderedSetDiff
    rw [h1]
    simp [List.filter_cons, hx]
  rw [h2]
  exact le_trans (List.length_filter_le _ _) (dedupFirstAux_length_le [x] xs)

lemma limit_head (tok : String → Nat) (x : String) (xs : List String) (budget : Nat)
    (h : limit_context_length tok (x :: xs) budget ≠ []) :
    limit_context_length tok (x :: xs) budget =
      x :: limit_context_length tok xs (budget - tok x) ∧
    (limit_context_length tok (x :: xs) budget).contains x = true := by
  by_cases hfit : tok x ≤ budget
  · constructor
    · simp only [limit_context_length, if_pos hfit]
    · simp only [limit_context_length, if_pos hfit, List.contains_cons, beq_self_eq_true,
        Bool.true_or]
  · exact absurd (by simp only [limit_context_length, if_neg hfit]) h

lemma reflect_loop_fueled (ext : Externals) (game : Game) (available_tokens : Nat) :
    ∀ (fuel : Nat) (pool : List String) (character : Character) (calls : Nat),
    pool.length < fuel →
    ∃ r, reflect_loop ext game available_tokens fuel pool character calls = some r ∧
      ∀ ch2 calls2 ex, r = .ok (ch2, calls2, ex) → calls2 ≤ calls + pool.length := by
  intro fuel
  induction fuel with
  | zero => intro pool _ _ h; exact absurd h (Nat.not_lt_zero _)
  | succ fuel ih =>
    intro pool character calls hlt
    by_cases htc : 0 < pool_token_count ext.tok pool
    · by_cases hlim : (limit_context_length ext.tok pool available_tokens).length = 0
      · refine ⟨.ok (character, calls, .aborted), ?_, ?_⟩
        · simp only [reflect_loop, if_pos htc, if_pos hlim]
        · intro ch2 calls2 ex hr
          cases hr
          exact Nat.le_add_right calls pool.length
      · cases pool with
        | nil =>
          exact absurd htc (by simp [pool_token_count])
        | cons x xs =>
          have hne : limit_context_length ext.tok (x :: xs) available_tokens ≠ [] := by
            intro hcon
            exact hlim (by rw [hcon]; rfl)
          obtain ⟨-, hcontains⟩ := limit_head ext.tok x xs available_tokens hne
          have hdiff : (orderedSetDiff (x :: xs)
              (limit_context_length ext.tok (x :: xs) available_tokens)).length ≤ xs.length :=
            orderedSetDiff_head_length x xs _ hcontains
          have hdlt : (orderedSetDiff (x :: xs)
              (limit_context_length ext.tok (x :: xs) available_tokens)).length < fuel := by
            have : xs.length < fuel := by
              simpa using Nat.lt_of_succ_lt_succ hlt
            omega
          cases hbp : batch_partition character
              (limit_context_length ext.tok (x :: xs) available_tokens) with
          | error e =>
            refine ⟨.error e, ?_, ?_⟩
            · simp only [reflect_loop, if_pos htc, if_neg hlim, hbp]
            · intro ch2 calls2 ex hr; cases hr
          | ok parts =>
            set user_prompt_str := String.join
              (ext.impressions ++ [relevant_memories_primer.getD 0 ""] ++
                (if parts.1.isEmpty then [relevant_memories_primer.getD 2 ""] else parts.1) ++
                [relevant_memories_primer.getD 1 ""] ++
                (if parts.2.isEmpty then [relevant_memories_primer.getD 2 ""] else parts.2) ++
                ["\n" ++ ext.insight_question]) with hups
            cases hag : add_generalizations_to_memory ext game character
                (ext.summarize user_prompt_str) with
            | error e =>
              refine ⟨.error e, ?_, ?_⟩
              · simp only [reflect_loop, if_pos htc, if_neg hlim, hbp, ← hups, hag]
              · intro ch2 calls2 ex hr; cases hr
            | ok character2 =>
              obtain ⟨r, hr, hcalls⟩ := ih
                (orderedSetDiff (x :: xs)
                  (limit_context_length ext.tok (x :: xs) available_tokens))
                character2 (calls + 1) hdlt
              refine ⟨r, ?_, ?_⟩
              · simp only [reflect_loop, if_pos htc, if_neg hlim, hbp, ← hups, hag]
                exact hr
              · intro ch2 calls2 ex hrr
                have := hcalls ch2 calls2 ex hrr
                have hx : (orderedSetDiff (x :: xs)
                    (limit_context_length ext.tok (x :: xs) available_tokens)).length
                      ≤ xs.length := hdiff
                simp only [List.length_cons]
                omega
    · refine ⟨.ok (character, calls, .drained), ?_, ?_⟩
      · simp only [reflect_loop, if_neg htc]
      · intro ch2 calls2 ex hr
        cases hr
        exact Nat.le_add_right calls pool.length

/-- C4: for every initial pool the consolidation loop terminates within
`pool.length` batch iterations — fuel `pool.length + 1` always suffices
(each executed loop body consumes a non-empty batch and strictly shrinks the
pool), and when the loop completes normally the number of summarizer calls
is at most the pool size; the empty-batch abort is the only other exit
(`LoopExit` has exactly the constructors `drained` and `aborted`). -/
theorem claim_C4 (ext : Externals) (game : Game) (available_tokens : Nat)
    (pool : List String) (character : Character) :
    ∃ r, reflect_loop ext game available_tokens (pool.length + 1) pool character 0 = some r ∧
      ∀ ch2 calls ex, r = .ok (ch2, calls, ex) → calls ≤ pool.length := by
  obtain ⟨r, hr, hcalls⟩ := reflect_loop_fueled ext game available_tokens
    (pool.length + 1) pool character 0 (Nat.lt_succ_self _)
  exact ⟨r, hr, fun ch2 calls ex h => by simpa using hcalls ch2 calls ex h⟩

/-- C8: for a non-empty candidate set whose stored importance values are all
equal, the importance sub-score is uniformly `0.5` (the zero-range branch of
`minmax_normalize`). -/
theorem claim_C8 (character : Character) (memory_ids : List Nat) (c : ℚ)
    (h1 : memory_ids ≠ [])
    (h2 : ∀ i ∈ memory_ids,
      (character.memory.observations.getD i default).node_importance = c) :
    calculate_node_importance character memory_ids =
      List.replicate memory_ids.length (1 / 2) := by
  unfold calculate_node_importance minmax_normalize
  have hall : ∀ x ∈ memory_ids.map
      (fun i => (character.memory.observations.getD i default).node_importance), x = c := by
    intro x hx
    rcases List.mem_map.mp hx with ⟨i, hi, rfl⟩
    exact h2 i hi
  have hne : memory_ids.map
      (fun i => (character.memory.observations.getD i default).node_importance) ≠ [] := by
    simpa using h1
  have hmin := listMin_const c _ hall hne
  have hmax := listMax_const c _ hall hne
  simp only [hmin, hmax, sub_self, eq_self_iff_true, if_true, List.length_map]

/-- Witness for C8: candidates 1 and 2 of the concrete store both carry
importance 1, and their importance sub-scores are both `0.5`. -/
theorem claim_C8_witness :
    calculate_node_importance exChar1 [1, 2] =
      List.replicate ([1, 2] : List Nat).length (1 / 2) :=
  claim_C8 exChar1 [1, 2] 1 (by decide)
    (by intro i hi; fin_cases hi <;> norm_num [exChar1, exRec])

/-- C6, claim as stated is false.  Counterexample: an `updated` entry whose
index is well-formed and names the existing OBSERVATION record 0, but which
carries no `"statement"`, does *not* get a new REFLECTION record appended:
the `new` fallback (`add_new_generalization_helper`) silently skips a
statement-less entry, and the store is returned unchanged (record 0 is,
however, untouched, as the claim says). -/
theorem claim_C6_counterexample :
    exChar1.memory.get_observation_type 0 = some .observation ∧
    update_existing_generalizations exExternals exGameNone exChar1
      ⟨none, some [⟨.val 0, none⟩]⟩ = .ok exChar1 := by
  constructor
  · rfl
  · rfl

/-- C6 (amended): an `updated` entry whose index is well-formed, names an
existing record that is not of type REFLECTION *and carries a statement*
leads to a new REFLECTION record being appended instead of any mutation, and
the named record (description, embedding, round, tick — the whole record) is
left unchanged; without a statement the entry is skipped and the named
record is still untouched. -/
theorem claim_C6_amended (ext : Externals) (game : Game) (character : Character)
    (i : Int) (s : String)
    (hi0 : 0 ≤ i) (hilen : i.toNat < character.memory.observations.length)
    (htype : (character.memory.observations.getD i.toNat default).node_type ≠ .reflection) :
    (∃ ch2 rec,
      update_existing_generalizations ext game character ⟨none, some [⟨.val i, some s⟩]⟩ =
        .ok ch2 ∧
      ch2.memory.observations = character.memory.observations ++ [rec] ∧
      rec.node_type = .reflection ∧
      rec.node_description = s ∧
      ch2.memory.observations.getD i.toNat default =
        character.memory.observations.getD i.toNat default) ∧
    update_existing_generalizations ext game character ⟨none, some [⟨.val i, none⟩]⟩ =
      .ok character := by
  have hgot : character.memory.get_observation_type i =
      some ((character.memory.observations.getD i.toNat default).node_type) := by
    simp only [Memory.get_observation_type, if_pos hi0, List.get?_eq_getElem?,
      List.getElem?_eq_getElem hilen, List.getD_eq_getElem?_getD, Option.getD_some]
    rfl
  have hcond : (character.memory.get_observation_type i).isSome ∧
      character.memory.get_observation_type i ≠ some .reflection := by
    rw [hgot]
    exact ⟨rfl, by intro h; exact htype (Option.some.inj h)⟩
  constructor
  · refine ⟨add_new_generalization_helper ext game character ⟨.val i, some s⟩,
      ⟨s, (summarise_and_score_action ext game s false true).2.1, ext.embed s,
        .reflection, game.round, game.tick, ((game.extract_keywords s).getD []),
        character.location_name, true, character.id⟩, ?_, ?_, rfl, rfl, ?_⟩
    · simp only [update_existing_generalizations, List.foldlM_cons, List.foldlM_nil,
        update_existing_one, if_pos hcond]
      rfl
    · simp [add_new_generalization_helper, Memory.add_memory,
        summarise_and_score_action]
    · simp only [add_new_generalization_helper, Memory.add_memory]
      exact List.getD_append _ _ _ _ hilen
  · simp only [update_existing_generalizations, List.foldlM_cons, List.foldlM_nil,
      update_existing_one, add_new_generalization_helper]
    rfl

/-- Witness for C6 (amended) at a concrete store: record 0 of `exChar1` is an
OBSERVATION. -/
theorem claim_C6_witness :
    (∃ ch2 rec,
      update_existing_generalizations exExternals exGameNone exChar1
          ⟨none, some [⟨.val 0, some "insight"⟩]⟩ = .ok ch2 ∧
      ch2.memory.observations = exChar1.memory.observations ++ [rec] ∧
      rec.node_type = .reflection ∧
      rec.node_description = "insight" ∧
      ch2.memory.observations.getD (0 : Int).toNat default =
        exChar1.memory.observations.getD (0 : Int).toNat default) ∧
    update_existing_generalizations exExternals exGameNone exChar1
        ⟨none, some [⟨.val 0, none⟩]⟩ = .ok exChar1 :=
  claim_C6_amended exExternals exGameNone exChar1 0 "insight" (by norm_num) (by decide)
    (by decide)

/-- C9: an `updated` entry whose target id is absent or not parseable as an
integer is processed as a `new` generalization — appended as a REFLECTION
record when it carries a statement, skipped (but never an error) when it
does not. -/
theorem claim_C9 (ext : Externals) (game : Game) (character : Character) (entry : GenEntry)
    (hidx : entry.index = .missing ∨ entry.index = .malformed) :
    (∀ s, entry.statement = some s →
      ∃ ch2 rec,
        update_existing_generalizations ext game character ⟨none, some [entry]⟩ = .ok ch2 ∧
        ch2.memory.observations = character.memory.observations ++ [rec] ∧
        rec.node_type = .reflection ∧
        rec.node_description = s) ∧
    (entry.statement = none →
      update_existing_generalizations ext game character ⟨none, some [entry]⟩ =
        .ok character) := by
  obtain ⟨idx, stmt⟩ := entry
  have hone : update_existing_one ext game character ⟨idx, stmt⟩ =
      .ok (add_new_generalization_helper ext game character ⟨idx, stmt⟩) := by
    rcases hidx with h | h <;> (cases h; rfl)
  constructor
  · rintro s rfl
    refine ⟨add_new_generalization_helper ext game character ⟨idx, some s⟩,
      ⟨s, (summarise_and_score_action ext game s false true).2.1, ext.embed s,
        .reflection, game.round, game.tick, ((game.extract_keywords s).getD []),
        character.location_name, true, character.id⟩, ?_, ?_, rfl, rfl⟩
    · simp only [update_existing_generalizations, List.foldlM_cons, List.foldlM_nil, hone]
      rfl
    · simp [add_new_generalization_helper, Memory.add_memory,
        summarise_and_score_action]
  · rintro rfl
    simp only [update_existing_generalizations, List.foldlM_cons, List.foldlM_nil, hone,
      add_new_generalization_helper]
    rfl

/-- Witness for C9: a missing-index entry with a statement and a
malformed-index entry without one, against the concrete store. -/
theorem claim_C9_witness :
    ((∀ s, (⟨.missing, some "lesson"⟩ : GenEntry).statement = some s →
      ∃ ch2 rec,
        update_existing_generalizations exExternals exGameNone exChar1
            ⟨none, some [⟨.missing, some "lesson"⟩]⟩ = .ok ch2 ∧
        ch2.memory.observations = exChar1.memory.observations ++ [rec] ∧
        rec.node_type = .reflection ∧
        rec.node_description = s) ∧
    ((⟨.missing, some "lesson"⟩ : GenEntry).statement = none →
      update_existing_generalizations exExternals exGameNone exChar1
          ⟨none, some [⟨.missing, some "lesson"⟩]⟩ = .ok exChar1)) :=
  claim_C9 exExternals exGameNone exChar1 ⟨.missing, some "lesson"⟩ (Or.inl rfl)

end SurvivorWorld
